import Mathlib

/-!
Verification of the structural-extraction and attachment-enumeration core of
the Spine hierarchy generator (`src/index.js`).

The JavaScript code is shallowly embedded: parsed JSON documents become the
inductive type `JVal`; the functions `collectAttachmentNames`,
`shouldPreserveAttachmentObject`, `extractMinimalSpineStructure`,
`findAttachmentSize`, the dimension clamping of `createBlankPng`, and the
output-finalisation fragment of `main` are translated definition by
definition from the source.
-/

set_option maxHeartbeats 1000000

namespace SpineHier

/-- JavaScript-like values as parsed from JSON, plus `undefined` (the result
of a missing property access).  Numbers are modelled as integers (the
dimension fields the tool consumes are integral; float-only behaviour is out
of scope).  Object fields are kept in document order; `for ... in`
enumeration is modelled as field order, which matches ECMAScript enumeration
for non-array-index string keys (real JS additionally moves integer-like
keys to the front, a reordering irrelevant to documents whose slot and
attachment names are ordinary strings). -/
inductive JVal : Type where
  | null : JVal
  | undefined : JVal
  | bool : Bool → JVal
  | num : Int → JVal
  | str : String → JVal
  | arr : List JVal → JVal
  | obj : List (String × JVal) → JVal

/-- JavaScript truthiness: `null`, `undefined`, `false`, `0` and `""` are
falsy, every object and array is truthy. -/
def truthy : JVal → Bool
  | .null => false
  | .undefined => false
  | .bool b => b
  | .num n => n != 0
  | .str s => !(s == "")
  | .arr _ => true
  | .obj _ => true

/-- A value on which plain member access is legal in JS (`null` and
`undefined` throw a `TypeError`; every other value, including primitives,
yields `undefined` for an absent property). -/
def notNullish : JVal → Bool
  | .null => false
  | .undefined => false
  | _ => true

/-- Is the value a plain object (`{...}`)? -/
def isObj : JVal → Bool
  | .obj _ => true
  | _ => false

/-- `typeof v === "object"` in JS: true for plain objects, arrays and
`null`. -/
def isObjectType : JVal → Bool
  | .obj _ => true
  | .arr _ => true
  | .null => true
  | _ => false

/-- All characters are decimal digits. -/
def decDigits : List Char → Bool
  | [] => true
  | c :: cs => c.isDigit && decDigits cs

/-- The number denoted by a list of decimal digits (most significant
first), folded onto an accumulator. -/
def natOfDigits : List Char → Nat → Nat
  | [], acc => acc
  | c :: cs, acc => natOfDigits cs (acc * 10 + (c.toNat - '0'.toNat))

/-- The natural number a non-empty all-digit string denotes (a structural
version of the library's string-to-number parse, kept primitive-recursive
so that concrete documents evaluate inside the kernel). -/
def strToNat? (s : String) : Option Nat :=
  match s.data with
  | [] => none
  | l => if decDigits l then some (natOfDigits l 0) else none

/-- The canonical array-index reading of a property key: `some i` when the
key is exactly the decimal representation of `i` (JS array and string
indexing only fires on canonical index strings: `a["00"]` is `undefined`
even when `a[0]` exists). -/
def canonIndex (k : String) : Option Nat :=
  match strToNat? k with
  | some i => if toString i = k then some i else none
  | none => none

/-- The own enumerable (key, value) pairs a `for ... in` loop visits:
object fields in order, array elements under their index keys, string
characters under their index keys, nothing for every other value. -/
def ownPairs (v : JVal) : List (String × JVal) :=
  match v with
  | .obj fields => fields
  | .arr elems => elems.enum.map (fun p => (toString p.1, p.2))
  | .str s => s.data.enum.map (fun p => (toString p.1, JVal.str (String.mk [p.2])))
  | _ => []

/-- Property access `v[k]` (and, identically, `v?.[k]`): first matching
object field, canonical index into arrays and strings, `undefined`
otherwise.  (JS object keys are unique, so "first matching field" agrees
with JS lookup on every representable object.) -/
def getField (v : JVal) (k : String) : JVal :=
  match v with
  | .obj fields => (((fields.find? (fun p => p.1 == k)).map (fun p => p.2)).getD .undefined)
  | .arr elems =>
    match canonIndex k with
    | some i => (elems.get? i).getD .undefined
    | none => .undefined
  | .str s =>
    match canonIndex k with
    | some i => ((s.data.get? i).map (fun c => JVal.str (String.mk [c]))).getD .undefined
    | none => .undefined
  | _ => .undefined

/-- Whether an object carries the named own field (`k in v` for plain
objects; false for every non-object). -/
def hasKey (v : JVal) (k : String) : Bool :=
  match v with
  | .obj fields => fields.any (fun p => p.1 == k)
  | _ => false

/-- The JS short-circuit `a || b`. -/
def jsOr (a b : JVal) : JVal :=
  if truthy a then a else b

/-- Whitespace-trimming on the character list (structural stand-in for
`String.trim`). -/
def trimChars (l : List Char) : List Char :=
  ((l.dropWhile (fun c => c.isWhitespace)).reverse.dropWhile
    (fun c => c.isWhitespace)).reverse

/-- A signed decimal integer literal's value. -/
def charsToInt? : List Char → Option Int
  | [] => none
  | c :: cs =>
    if c = '-' then
      match cs with
      | [] => none
      | l => if decDigits l then some (-(natOfDigits l 0 : Int)) else none
    else if c = '+' then
      match cs with
      | [] => none
      | l => if decDigits l then some ((natOfDigits l 0 : Int)) else none
    else if decDigits (c :: cs) then some ((natOfDigits (c :: cs) 0 : Int)) else none

/-- `Number(...)` on a string, modelled for integral literals: an
empty/whitespace string converts to `0`, a signed decimal integer literal
to its value, anything else to NaN (`none`). -/
def strToNumber (s : String) : Option Int :=
  match trimChars s.data with
  | [] => some 0
  | l => charsToInt? l

/-- JS `Number(v)` coercion; `none` stands for NaN.  (Array/object
to-primitive coercion is collapsed to NaN; the code never converts
containers to numbers on the paths under verification.) -/
def toNumber : JVal → Option Int
  | .null => some 0
  | .undefined => none
  | .bool b => some (if b then 1 else 0)
  | .num n => some n
  | .str s => strToNumber s
  | .arr _ => none
  | .obj _ => none

/-- The idiom `Number(x) || 0`: NaN becomes `0`, every number (including a
negative one) is kept — `0 || 0` is `0` either way. -/
def numOr0 (v : JVal) : Int :=
  (toNumber v).getD 0

/-! ## `collectAttachmentNames` (src/index.js lines 230-256) -/

/-- The attachment names contributed by one slot-name→attachment mapping:
the two inner `for ... in` loops of `collectAttachmentNames`. -/
def namesFromRoot (root : JVal) : List String :=
  (ownPairs root).flatMap (fun slotPair => (ownPairs slotPair.2).map (fun p => p.1))

/-- JS `Set` insertion semantics on a list of additions: keep the first
occurrence of each element, in insertion order (`Array.from(set)`). -/
def dedupKeepFirst (seen : List String) : List String → List String
  | [] => []
  | s :: rest =>
    if s ∈ seen then dedupKeepFirst seen rest
    else s :: dedupKeepFirst (s :: seen) rest

/-- `collectAttachmentNames(spineJson)` from src/index.js lines 230-256:
empty when the document or its `skins` field is falsy; for an array-shaped
`skins`, each entry's `attachments` field (or the entry itself when that is
falsy) is the slot mapping; for a map-shaped `skins`, each skin value is
the slot mapping; names are accumulated into a `Set` and returned in first
insertion order. -/
def collectAttachmentNames (spineJson : JVal) : List String :=
  if !truthy spineJson || !truthy (getField spineJson "skins") then []
  else
    let raw :=
      match getField spineJson "skins" with
      | .arr skinList =>
        skinList.flatMap (fun skin => namesFromRoot (jsOr (getField skin "attachments") skin))
      | skins => (ownPairs skins).flatMap (fun skinPair => namesFromRoot skinPair.2)
    dedupKeepFirst [] raw

/-! ## `shouldPreserveAttachmentObject` (src/index.js lines 258-283) -/

/-- The fixed recognized geometry-key set of `shouldPreserveAttachmentObject`. -/
def preserveKeys : List String :=
  ["type", "lengths", "vertexCount", "vertices", "uvs", "triangles", "hull",
   "edges", "weights", "path", "end", "closed", "constantSpeed", "color",
   "Path_Portrait", "Path", "Mask"]

/-- `shouldPreserveAttachmentObject(attachmentObject)` from src/index.js
lines 258-283: false for falsy or non-object values (`typeof` check), true
exactly when some own key of the object is in `preserveKeys`.  (For an
array, `Object.keys` yields index strings, none of which is recognized.) -/
def shouldPreserveAttachmentObject (attachmentObject : JVal) : Bool :=
  if !truthy attachmentObject || !isObjectType attachmentObject then false
  else (ownPairs attachmentObject).any (fun p => preserveKeys.contains p.1)

/-! ## `extractMinimalSpineStructure` (src/index.js lines 286-369) -/

/-- The reduced skeleton block, src/index.js lines 290-303: each field is
`input || default`; the `images` field is then overwritten with the literal
`"./images/"` whenever it is truthy (which, being `input-images || "./images/"`,
it always is). -/
def reduceSkeleton (skel : JVal) : JVal :=
  let images0 := jsOr (getField skel "images") (.str "./images/")
  let images1 := if truthy images0 then JVal.str "./images/" else images0
  .obj [("hash", jsOr (getField skel "hash") (.str "ANDAzG2KBFVqeVmU+LDx0cn5rt0")),
        ("spine", jsOr (getField skel "spine") (.str "3.7.94")),
        ("width", jsOr (getField skel "width") (.num 0)),
        ("height", jsOr (getField skel "height") (.num 0)),
        ("images", images1),
        ("audio", jsOr (getField skel "audio") (.str ""))]

/-- One reduced bone, src/index.js lines 307-311: `{name}` plus `parent`
when truthy. -/
def reduceBone (bone : JVal) : JVal :=
  if truthy (getField bone "parent") then
    .obj [("name", getField bone "name"), ("parent", getField bone "parent")]
  else
    .obj [("name", getField bone "name")]

/-- One reduced slot entry, src/index.js lines 316-319. -/
def reduceSlotEntry (slot : JVal) : JVal :=
  .obj [("name", getField slot "name"), ("bone", getField slot "bone")]

/-- One reduced attachment, src/index.js lines 331-343: preserved verbatim
when `shouldPreserveAttachmentObject`, else `{width: a.width || 0,
height: a.height || 0}`. -/
def reduceAttachment (attachment : JVal) : JVal :=
  if shouldPreserveAttachmentObject attachment then attachment
  else .obj [("width", jsOr (getField attachment "width") (.num 0)),
             ("height", jsOr (getField attachment "height") (.num 0))]

/-- One slot of the default skin, reduced attachment by attachment
(src/index.js lines 329-343). -/
def reduceSlot (slot : JVal) : JVal :=
  .obj ((ownPairs slot).map (fun p => (p.1, reduceAttachment p.2)))

/-- The reduced default skin (src/index.js lines 327-344). -/
def reduceDefaultSkin (dflt : JVal) : JVal :=
  .obj ((ownPairs dflt).map (fun p => (p.1, reduceSlot p.2)))

/-- `spineJson.skins.default`. -/
def defaultSkin (spineJson : JVal) : JVal :=
  getField (getField spineJson "skins") "default"

/-- An optional field of the result object: present exactly when its guard
holds.  The `bones`/`slots` guards of the source are `Array.isArray`, the
`skeleton`/`skins` guards truthiness checks. -/
def optField (c : Bool) (k : String) (v : JVal) : List (String × JVal) :=
  if c then [(k, v)] else []

/-- `Array.isArray`. -/
def isArr : JVal → Bool
  | .arr _ => true
  | _ => false

/-- The element list of an array value (used only under an `Array.isArray`
guard). -/
def asArr : JVal → List JVal
  | .arr elems => elems
  | _ => []

/-- `extractMinimalSpineStructure(spineJson)` from src/index.js lines
286-369, as the result object's field list in assignment order: optional
`skeleton`, optional `bones`, optional `slots`, always `transform` and
`path`, optional `skins` (only the reduced `default` skin, and only when
`spineJson.skins` and `spineJson.skins.default` are truthy — on an
array-shaped `skins` the `.default` access yields `undefined`), always
`animations` and `events`. -/
def extractFields (spineJson : JVal) : List (String × JVal) :=
  optField (truthy (getField spineJson "skeleton")) "skeleton"
      (reduceSkeleton (getField spineJson "skeleton"))
    ++ optField (isArr (getField spineJson "bones")) "bones"
      (.arr ((asArr (getField spineJson "bones")).map reduceBone))
    ++ optField (isArr (getField spineJson "slots")) "slots"
      (.arr ((asArr (getField spineJson "slots")).map reduceSlotEntry))
    ++ [("transform", getField spineJson "transform"),
        ("path", getField spineJson "path")]
    ++ optField (truthy (getField spineJson "skins") && truthy (defaultSkin spineJson))
      "skins" (.obj [("default", reduceDefaultSkin (defaultSkin spineJson))])
    ++ [("animations", getField spineJson "animations"),
        ("events", getField spineJson "events")]

def extractMinimalSpineStructure (spineJson : JVal) : JVal :=
  .obj (extractFields spineJson)

/-! ## `findAttachmentSize` (src/index.js lines 419-448) -/

/-- The positive-dimension check and result of the innermost body of
`findAttachmentSize`: `w = Number(att.width) || 0`, `h` likewise, and
`{width: w, height: h}` is returned when both are strictly positive. -/
def checkDims (att : JVal) : Option (Int × Int) :=
  let w := numOr0 (getField att "width")
  let h := numOr0 (getField att "height")
  if w > 0 && h > 0 then some (w, h) else none

/-- The `scanAttachmentsRoot` closure of `findAttachmentSize`
(src/index.js lines 421-434): first attachment literally named `name` in
this root whose coerced width and height are both strictly positive,
scanned slot by slot, attachment by attachment. -/
def scanAttachmentsRoot (root : JVal) (name : String) : Option (Int × Int) :=
  (ownPairs root).findSome? (fun slotPair =>
    (ownPairs slotPair.2).findSome? (fun attPair =>
      if attPair.1 == name then checkDims attPair.2 else none))

/-- `findAttachmentSize(json, name)` from src/index.js lines 419-448:
`{0,0}` when the document or its `skins` field is falsy; otherwise scan
skins in document order (array entries via their `attachments` field or
the entry itself; map entries directly) and return the first positive
match, else `{0,0}`. -/
def findAttachmentSize (json : JVal) (name : String) : Int × Int :=
  if !truthy json || !truthy (getField json "skins") then (0, 0)
  else
    (match getField json "skins" with
     | .arr skinList =>
       skinList.findSome? (fun skin =>
         scanAttachmentsRoot (jsOr (getField skin "attachments") skin) name)
     | skins =>
       (ownPairs skins).findSome? (fun skinPair : String × JVal =>
         scanAttachmentsRoot skinPair.2 name)).getD (0, 0)

/-! ## Placeholder image sizing (src/index.js lines 157-161 and 450-464) -/

/-- The idiom `Number(x) || 1` of `createBlankPng`. -/
def numOr1 (v : JVal) : Int :=
  match toNumber v with
  | some n => if n = 0 then 1 else n
  | none => 1

/-- The dimensions `createBlankPng` actually allocates (src/index.js lines
159-160): `Math.max(1, Number(width) || 1)` in each axis. -/
def createBlankPngDims (width height : JVal) : Int × Int :=
  (max 1 (numOr1 width), max 1 (numOr1 height))

/-- The per-attachment size the generation loop passes to `createBlankPng`
(src/index.js lines 461-464): each axis of `findAttachmentSize`'s result,
with a non-positive axis replaced by the fallback `2`. -/
def generationSize (size : Int × Int) : Int × Int :=
  (if size.1 > 0 then size.1 else 2, if size.2 > 0 then size.2 else 2)

/-- The attachment names the generation loop actually processes
(src/index.js lines 450-451): the enumerated names minus falsy (empty)
ones, which `if (!attachmentName) continue` skips. -/
def generatedNames (spineJson : JVal) : List String :=
  (collectAttachmentNames spineJson).filter (fun s => !(s == ""))

/-! ## Output finalisation in `main` (src/index.js lines 474-491) -/

/-- JS property assignment `v[k] = x` on an object: overwrite the existing
field in place, else append; assignment to a non-object is modelled as a
no-op (it never happens on the verified path: the assigned target is
always the object `extractMinimalSpineStructure` returned). -/
def setField (v : JVal) (k : String) (x : JVal) : JVal :=
  match v with
  | .obj fields =>
    if fields.any (fun p => p.1 == k) then
      .obj (fields.map (fun p => if p.1 == k then (k, x) else p))
    else
      .obj (fields ++ [(k, x)])
  | other => other

/-- Backslash-to-slash normalisation of the images path
(src/index.js line 400). -/
def normalizeSlashes (s : String) : String :=
  s.map (fun c => if c = '\\' then '/' else c)

/-- Line 477: `if (!outputJson.skeleton) outputJson.skeleton = {}`. -/
def ensureSkeleton (outputJson : JVal) : JVal :=
  if truthy (getField outputJson "skeleton") then outputJson
  else setField outputJson "skeleton" (.obj [])

/-- Lines 478-480: `--force-version` overwrites `skeleton.spine` (the flag
value is already a string, so `String(...)` is the identity). -/
def applyForceVersion (outputJson : JVal) (forceVersion : Option String) : JVal :=
  match forceVersion with
  | some v => setField outputJson "skeleton"
      (setField (getField outputJson "skeleton") "spine" (.str v))
  | none => outputJson

/-- Lines 481-486: with an explicit output directory, `skeleton.images` is
overwritten with the slash-normalised, slash-terminated directory. -/
def applyOutDirImages (outputJson : JVal) (outDir : Option String) : JVal :=
  match outDir with
  | some d =>
    let img0 := normalizeSlashes d
    let img1 := if img0.endsWith "/" then img0 else img0 ++ "/"
    setField outputJson "skeleton"
      (setField (getField outputJson "skeleton") "images" (.str img1))
  | none => outputJson

/-- The document `main` writes to `generated_spine.json` (src/index.js
lines 474-491), as a function of the reduced document and the CLI
arguments, in source order: a falsy `skeleton` is replaced by `{}`, then
the force-version override, then the images-directory override. -/
def finalizeOutput (outputJson : JVal) (forceVersion : Option String)
    (outDir : Option String) : JVal :=
  applyOutDirImages (applyForceVersion (ensureSkeleton outputJson) forceVersion) outDir

/-! ## General helper lemmas -/

theorem find?_optField (c : Bool) (k k' : String) (v : JVal) :
    List.find? (fun p => p.1 == k') (optField c k v)
      = if c && (k == k') then some (k, v) else none := by
  cases c <;> cases h : (k == k') <;>
    simp_all [optField, List.find?_cons, List.find?_nil]

theorem any_optField (c : Bool) (k k' : String) (v : JVal) :
    List.any (optField c k v) (fun p => p.1 == k') = (c && (k == k')) := by
  cases c <;> simp [optField]

theorem findSome?_guard {α β : Type} (p : α → Bool) (f : α → β) (l : List α) :
    l.findSome? (fun a => if p a then some (f a) else none) = (l.find? p).map f := by
  induction l with
  | nil => rfl
  | cons a l ih =>
    cases h : p a <;> simp [List.findSome?_cons, List.find?_cons, h, ih]

theorem findSome?_map_inner {α β γ : Type} (l : List α) (f : α → Option β) (m : β → γ) :
    l.findSome? (fun a => (f a).map m) = (l.findSome? f).map m := by
  induction l with
  | nil => rfl
  | cons a l ih =>
    cases h : f a <;> simp [List.findSome?_cons, h, ih]

theorem findSome?_comp_map {α β γ : Type} (l : List α) (g : α → β) (f : β → Option γ) :
    (l.map g).findSome? f = l.findSome? (fun a => f (g a)) := by
  induction l with
  | nil => rfl
  | cons a l ih =>
    cases h : f (g a) <;> simp [List.findSome?_cons, h, ih]

theorem findSome?_filter {α β : Type} (l : List α) (p : α → Bool) (f : α → Option β) :
    (l.filter p).findSome? f = l.findSome? (fun a => if p a then f a else none) := by
  induction l with
  | nil => rfl
  | cons a l ih =>
    cases h : p a <;> simp [List.filter_cons, List.findSome?_cons, h, ih]

theorem find?_flatMap {α β : Type} (l : List α) (g : α → List β) (p : β → Bool) :
    (l.flatMap g).find? p = l.findSome? (fun a => (g a).find? p) := by
  induction l with
  | nil => rfl
  | cons a l ih =>
    cases h : (g a).find? p <;>
      simp [List.flatMap_cons, List.find?_append, List.findSome?_cons, h, ih]

theorem ownPairs_eq_nil_of_falsy (v : JVal) (h : truthy v = false) : ownPairs v = [] := by
  cases v <;> simp_all [truthy, ownPairs]

theorem truthy_jsOr_default (a b : JVal) (hb : truthy b = true) :
    truthy (jsOr a b) = true := by
  unfold jsOr
  cases h : truthy a <;> simp [h, hb]

theorem truthy_getField_false_of_not_hasKey (v : JVal) (k : String)
    (hk : hasKey v k = false) (hn : strToNat? k = none) :
    truthy (getField v k) = false := by
  cases v with
  | obj fields =>
    have hnone : fields.find? (fun p => p.1 == k) = none := by
      rw [List.find?_eq_none]
      intro p hp hpk
      have hany : fields.any (fun p => p.1 == k) = true :=
        List.any_eq_true.mpr ⟨p, hp, hpk⟩
      have hk' : fields.any (fun p => p.1 == k) = false := by simpa [hasKey] using hk
      rw [hk'] at hany
      simp at hany
    simp [getField, hnone, truthy]
  | arr elems => simp [getField, canonIndex, hn, truthy]
  | str s => simp [getField, canonIndex, hn, truthy]
  | null => simp [getField, truthy]
  | undefined => simp [getField, truthy]
  | bool b => simp [getField, truthy]
  | num n => simp [getField, truthy]

theorem find?_map_snd (f : JVal → JVal) (k : String) (l : List (String × JVal)) :
    (l.map (fun p => (p.1, f p.2))).find? (fun p => p.1 == k)
      = (l.find? (fun p => p.1 == k)).map (fun p => (p.1, f p.2)) := by
  induction l with
  | nil => rfl
  | cons a l ih =>
    cases h : (a.1 == k) <;> simp [List.find?_cons, h, ih]

theorem getField_map_obj (fields : List (String × JVal)) (f : JVal → JVal) (k : String)
    (h : fields.any (fun p => p.1 == k) = true) :
    getField (.obj (fields.map (fun p => (p.1, f p.2)))) k
      = f (getField (.obj fields) k) := by
  have hsome : (fields.find? (fun p => p.1 == k)).isSome := by
    rw [List.find?_isSome]
    simpa [List.any_eq_true] using h
  obtain ⟨p, hp⟩ := Option.isSome_iff_exists.mp hsome
  simp only [getField]
  rw [find?_map_snd, hp]
  simp

theorem truthy_of_isObj (v : JVal) (h : isObj v = true) : truthy v = true := by
  cases v <;> simp_all [isObj, truthy]

theorem getField_obj (fields : List (String × JVal)) (k : String) :
    getField (.obj fields) k
      = ((fields.find? (fun p => p.1 == k)).map (fun p => p.2)).getD .undefined := rfl

theorem hasKey_obj (fields : List (String × JVal)) (k : String) :
    hasKey (.obj fields) k = fields.any (fun p => p.1 == k) := rfl

/-! ## Lemmas about the reduced document's field table -/

theorem hasKey_extract_skeleton (j : JVal) :
    hasKey (extractMinimalSpineStructure j) "skeleton" = truthy (getField j "skeleton") := by
  rw [show extractMinimalSpineStructure j = JVal.obj (extractFields j) from rfl, hasKey_obj]
  simp [extractFields, List.any_append, any_optField]

theorem hasKey_extract_skins (j : JVal) :
    hasKey (extractMinimalSpineStructure j) "skins"
      = (truthy (getField j "skins") && truthy (defaultSkin j)) := by
  rw [show extractMinimalSpineStructure j = JVal.obj (extractFields j) from rfl, hasKey_obj]
  simp [extractFields, List.any_append, any_optField]

theorem extract_getField_skeleton (j : JVal) (h : truthy (getField j "skeleton") = true) :
    getField (extractMinimalSpineStructure j) "skeleton"
      = reduceSkeleton (getField j "skeleton") := by
  rw [show extractMinimalSpineStructure j = JVal.obj (extractFields j) from rfl, getField_obj]
  simp [extractFields, List.find?_append, find?_optField, h]

theorem extract_getField_skins (j : JVal)
    (h1 : truthy (getField j "skins") = true) (h2 : truthy (defaultSkin j) = true) :
    getField (extractMinimalSpineStructure j) "skins"
      = .obj [("default", reduceDefaultSkin (defaultSkin j))] := by
  rw [show extractMinimalSpineStructure j = JVal.obj (extractFields j) from rfl, getField_obj]
  simp [extractFields, List.find?_append, find?_optField, List.find?_cons, h1, h2]

theorem extract_getField_transform (j : JVal) :
    getField (extractMinimalSpineStructure j) "transform" = getField j "transform" := by
  rw [show extractMinimalSpineStructure j = JVal.obj (extractFields j) from rfl, getField_obj]
  simp [extractFields, List.find?_append, find?_optField, List.find?_cons]

theorem extract_getField_path (j : JVal) :
    getField (extractMinimalSpineStructure j) "path" = getField j "path" := by
  rw [show extractMinimalSpineStructure j = JVal.obj (extractFields j) from rfl, getField_obj]
  simp [extractFields, List.find?_append, find?_optField, List.find?_cons]

theorem extract_getField_animations (j : JVal) :
    getField (extractMinimalSpineStructure j) "animations" = getField j "animations" := by
  rw [show extractMinimalSpineStructure j = JVal.obj (extractFields j) from rfl, getField_obj]
  simp [extractFields, List.find?_append, find?_optField, List.find?_cons]

theorem extract_getField_events (j : JVal) :
    getField (extractMinimalSpineStructure j) "events" = getField j "events" := by
  rw [show extractMinimalSpineStructure j = JVal.obj (extractFields j) from rfl, getField_obj]
  simp [extractFields, List.find?_append, find?_optField, List.find?_cons]

theorem hasKey_extract_transform (j : JVal) :
    hasKey (extractMinimalSpineStructure j) "transform" = true := by
  rw [show extractMinimalSpineStructure j = JVal.obj (extractFields j) from rfl, hasKey_obj]
  simp [extractFields, List.any_append, any_optField]

theorem hasKey_extract_path (j : JVal) :
    hasKey (extractMinimalSpineStructure j) "path" = true := by
  rw [show extractMinimalSpineStructure j = JVal.obj (extractFields j) from rfl, hasKey_obj]
  simp [extractFields, List.any_append, any_optField]

theorem hasKey_extract_animations (j : JVal) :
    hasKey (extractMinimalSpineStructure j) "animations" = true := by
  rw [show extractMinimalSpineStructure j = JVal.obj (extractFields j) from rfl, hasKey_obj]
  simp [extractFields, List.any_append, any_optField]

theorem hasKey_extract_events (j : JVal) :
    hasKey (extractMinimalSpineStructure j) "events" = true := by
  rw [show extractMinimalSpineStructure j = JVal.obj (extractFields j) from rfl, hasKey_obj]
  simp [extractFields, List.any_append, any_optField]

theorem isObj_extract (j : JVal) : isObj (extractMinimalSpineStructure j) = true := rfl

/-! ## Lemmas about `setField` -/

theorem setField_obj_pos (fields : List (String × JVal)) (k : String) (x : JVal)
    (h : fields.any (fun p => p.1 == k) = true) :
    setField (.obj fields) k x
      = .obj (fields.map (fun p => if p.1 == k then (k, x) else p)) := by
  simp [setField, h]

theorem setField_obj_neg (fields : List (String × JVal)) (k : String) (x : JVal)
    (h : ¬ fields.any (fun p => p.1 == k) = true) :
    setField (.obj fields) k x = .obj (fields ++ [(k, x)]) := by
  simp [setField, h]

theorem isObj_setField (v : JVal) (k : String) (x : JVal) (h : isObj v = true) :
    isObj (setField v k x) = true := by
  cases v with
  | obj fields =>
    by_cases hany : fields.any (fun p => p.1 == k) = true
    · rw [setField_obj_pos fields k x hany]; rfl
    · rw [setField_obj_neg fields k x hany]; rfl
  | null => simp [isObj] at h
  | undefined => simp [isObj] at h
  | bool b => simp [isObj] at h
  | num n => simp [isObj] at h
  | str s => simp [isObj] at h
  | arr l => simp [isObj] at h

theorem hasKey_setField_self (v : JVal) (k : String) (x : JVal) (h : isObj v = true) :
    hasKey (setField v k x) k = true := by
  cases v with
  | obj fields =>
    by_cases hany : fields.any (fun p => p.1 == k) = true
    · obtain ⟨p, hp, hpk⟩ := List.any_eq_true.mp hany
      rw [setField_obj_pos fields k x hany, hasKey_obj]
      apply List.any_eq_true.mpr
      refine ⟨(k, x), ?_, by simp⟩
      apply List.mem_map.mpr
      exact ⟨p, hp, by simp [hpk]⟩
    · rw [setField_obj_neg fields k x hany, hasKey_obj]
      simp
  | null => simp [isObj] at h
  | undefined => simp [isObj] at h
  | bool b => simp [isObj] at h
  | num n => simp [isObj] at h
  | str s => simp [isObj] at h
  | arr l => simp [isObj] at h

theorem find?_update_eq_some (k : String) (x : JVal) (l : List (String × JVal))
    (h : l.any (fun p => p.1 == k) = true) :
    List.find? (fun p => p.1 == k)
        (l.map (fun p => if p.1 == k then (k, x) else p)) = some (k, x) := by
  induction l with
  | nil => simp at h
  | cons a l ih =>
    cases ha : (a.1 == k) with
    | true =>
      have ha' : a.1 = k := by simpa using ha
      simp [List.find?_cons, List.map_cons, ha, ha']
    | false =>
      have ha' : ¬ a.1 = k := by simpa using ha
      have h' : l.any (fun p => p.1 == k) = true := by
        simpa [List.any_cons, ha] using h
      rw [List.map_cons, if_neg (show ¬ (a.1 == k) = true by simp [ha]),
        List.find?_cons, ha]
      exact ih h' 

theorem getField_setField_self (v : JVal) (k : String) (x : JVal) (h : isObj v = true) :
    getField (setField v k x) k = x := by
  cases v with
  | obj fields =>
    by_cases hany : fields.any (fun p => p.1 == k) = true
    · rw [setField_obj_pos fields k x hany, getField_obj,
        find?_update_eq_some k x fields hany]
      rfl
    · have hnone : fields.find? (fun p => p.1 == k) = none := by
        rw [List.find?_eq_none]
        intro p hp hpk
        exact absurd (List.any_eq_true.mpr ⟨p, hp, hpk⟩) hany
      rw [setField_obj_neg fields k x hany, getField_obj, List.find?_append, hnone]
      simp [List.find?_cons]
  | null => simp [isObj] at h
  | undefined => simp [isObj] at h
  | bool b => simp [isObj] at h
  | num n => simp [isObj] at h
  | str s => simp [isObj] at h
  | arr l => simp [isObj] at h

theorem hasKey_of_truthy_getField (v : JVal) (k : String)
    (h : truthy (getField v k) = true) (hv : isObj v = true) : hasKey v k = true := by
  cases v with
  | obj fields =>
    rw [getField_obj] at h
    cases hf : fields.find? (fun p => p.1 == k) with
    | none => rw [hf] at h; simp [truthy] at h
    | some p =>
      rw [hasKey_obj]
      have hpk : (p.1 == k) = true := by
        have hs := List.find?_some hf
        simpa using hs
      exact List.any_eq_true.mpr ⟨p, List.mem_of_find?_eq_some hf, hpk⟩
  | null => simp [isObj] at hv
  | undefined => simp [isObj] at hv
  | bool b => simp [isObj] at hv
  | num n => simp [isObj] at hv
  | str s => simp [isObj] at hv
  | arr l => simp [isObj] at hv

/-! ## Lemmas about the output-finalisation stages -/

theorem isObj_ensureSkeleton (v : JVal) (h : isObj v = true) :
    isObj (ensureSkeleton v) = true := by
  unfold ensureSkeleton
  split
  · exact h
  · exact isObj_setField v "skeleton" (.obj []) h

theorem hasKey_ensureSkeleton (v : JVal) (h : isObj v = true) :
    hasKey (ensureSkeleton v) "skeleton" = true := by
  unfold ensureSkeleton
  split
  · next ht => exact hasKey_of_truthy_getField v "skeleton" ht h
  · exact hasKey_setField_self v "skeleton" (.obj []) h

theorem isObj_applyForceVersion (v : JVal) (fv : Option String) (h : isObj v = true) :
    isObj (applyForceVersion v fv) = true := by
  cases fv with
  | none => exact h
  | some s => exact isObj_setField v "skeleton" _ h

theorem hasKey_applyForceVersion (v : JVal) (fv : Option String) (h : isObj v = true)
    (hk : hasKey v "skeleton" = true) :
    hasKey (applyForceVersion v fv) "skeleton" = true := by
  cases fv with
  | none => exact hk
  | some s => exact hasKey_setField_self v "skeleton" _ h

theorem hasKey_applyOutDirImages (v : JVal) (od : Option String) (h : isObj v = true)
    (hk : hasKey v "skeleton" = true) :
    hasKey (applyOutDirImages v od) "skeleton" = true := by
  cases od with
  | none => exact hk
  | some s => exact hasKey_setField_self v "skeleton" _ h

/-! ## The claims -/

/-- C5.  For every input document, the reduced output of
`extractMinimalSpineStructure` omits the `skeleton` field when the input
has no `skeleton` field, and omits the `skins` field entirely when the
input has no `default` skin. -/
theorem c5_omitted_fields (j : JVal) :
    (hasKey j "skeleton" = false →
      hasKey (extractMinimalSpineStructure j) "skeleton" = false)
    ∧ (hasKey (getField j "skins") "default" = false →
      hasKey (extractMinimalSpineStructure j) "skins" = false) := by
  constructor
  · intro hk
    rw [hasKey_extract_skeleton]
    exact truthy_getField_false_of_not_hasKey j "skeleton" hk (by decide)
  · intro hk
    rw [hasKey_extract_skins]
    have hd : truthy (defaultSkin j) = false :=
      truthy_getField_false_of_not_hasKey (getField j "skins") "default" hk (by decide)
    rw [hd, Bool.and_false]

/-- Witness for C5 at the empty document. -/
theorem c5_omitted_fields_witness :
    (hasKey (JVal.obj []) "skeleton" = false
      ∧ hasKey (extractMinimalSpineStructure (JVal.obj [])) "skeleton" = false)
    ∧ (hasKey (getField (JVal.obj []) "skins") "default" = false
      ∧ hasKey (extractMinimalSpineStructure (JVal.obj [])) "skins" = false) :=
  ⟨⟨rfl, (c5_omitted_fields (JVal.obj [])).1 rfl⟩,
   ⟨rfl, (c5_omitted_fields (JVal.obj [])).2 rfl⟩⟩

/-- C6.  The document written to `generated_spine.json` always contains a
`skeleton` field: when the reduced document has none, `main` assigns `{}`
to it before the force-version and images-directory overrides are applied
and the file is written. -/
theorem c6_skeleton_always_written (j : JVal) (forceVersion outDir : Option String) :
    hasKey (finalizeOutput (extractMinimalSpineStructure j) forceVersion outDir)
        "skeleton" = true
    ∧ (truthy (getField (extractMinimalSpineStructure j) "skeleton") = false →
      getField (finalizeOutput (extractMinimalSpineStructure j) none none) "skeleton"
        = .obj []) := by
  have hE : isObj (extractMinimalSpineStructure j) = true := isObj_extract j
  constructor
  · unfold finalizeOutput
    apply hasKey_applyOutDirImages _ _
      (isObj_applyForceVersion _ _ (isObj_ensureSkeleton _ hE))
    exact hasKey_applyForceVersion _ _ (isObj_ensureSkeleton _ hE)
      (hasKey_ensureSkeleton _ hE)
  · intro hsk
    show getField (ensureSkeleton (extractMinimalSpineStructure j)) "skeleton" = .obj []
    unfold ensureSkeleton
    rw [if_neg (by simp [hsk])]
    exact getField_setField_self _ "skeleton" _ hE

/-- Witness for C6 at the empty document (which reduces without a
`skeleton` block) with no CLI overrides. -/
theorem c6_skeleton_always_written_witness :
    hasKey (finalizeOutput (extractMinimalSpineStructure (JVal.obj [])) none none)
        "skeleton" = true
    ∧ truthy (getField (extractMinimalSpineStructure (JVal.obj [])) "skeleton") = false
    ∧ getField (finalizeOutput (extractMinimalSpineStructure (JVal.obj [])) none none)
        "skeleton" = .obj [] :=
  ⟨(c6_skeleton_always_written (JVal.obj []) none none).1,
   rfl,
   (c6_skeleton_always_written (JVal.obj []) none none).2 rfl⟩

/-- C7.  When the input has a truthy `skeleton`, the reduced skeleton block
copies `hash`, `spine`, `width`, `height` and `audio` with the fixed
defaults substituted for falsy values (`a || d` is `jsOr a d`), and its
`images` field is the literal `"./images/"` regardless of the input. -/
theorem c7_skeleton_block (j : JVal) (h : truthy (getField j "skeleton") = true) :
    getField (getField (extractMinimalSpineStructure j) "skeleton") "hash"
        = jsOr (getField (getField j "skeleton") "hash")
            (.str "ANDAzG2KBFVqeVmU+LDx0cn5rt0")
    ∧ getField (getField (extractMinimalSpineStructure j) "skeleton") "spine"
        = jsOr (getField (getField j "skeleton") "spine") (.str "3.7.94")
    ∧ getField (getField (extractMinimalSpineStructure j) "skeleton") "width"
        = jsOr (getField (getField j "skeleton") "width") (.num 0)
    ∧ getField (getField (extractMinimalSpineStructure j) "skeleton") "height"
        = jsOr (getField (getField j "skeleton") "height") (.num 0)
    ∧ getField (getField (extractMinimalSpineStructure j) "skeleton") "audio"
        = jsOr (getField (getField j "skeleton") "audio") (.str "")
    ∧ getField (getField (extractMinimalSpineStructure j) "skeleton") "images"
        = .str "./images/" := by
  rw [extract_getField_skeleton j h]
  refine ⟨rfl, rfl, rfl, rfl, rfl, ?_⟩
  have himg : truthy (jsOr (getField (getField j "skeleton") "images")
      (JVal.str "./images/")) = true :=
    truthy_jsOr_default _ _ (by decide)
  simp [reduceSkeleton, getField_obj, List.find?_cons, himg]

/-- Witness for C7 at a document whose skeleton carries a custom images
path, which the reduction still forces to `"./images/"`. -/
theorem c7_skeleton_block_witness :
    truthy (getField (JVal.obj [("skeleton",
        .obj [("hash", .str "h"), ("images", .str "img/")])]) "skeleton") = true
    ∧ getField (getField (extractMinimalSpineStructure (JVal.obj [("skeleton",
        .obj [("hash", .str "h"), ("images", .str "img/")])])) "skeleton") "images"
      = .str "./images/" :=
  ⟨rfl,
   (c7_skeleton_block (JVal.obj [("skeleton",
      .obj [("hash", .str "h"), ("images", .str "img/")])]) rfl).2.2.2.2.2⟩

/-- C8.  The reduced output's `transform`, `path`, `animations` and
`events` fields are assigned (the key is present even when the input lacks
the field, i.e. the value is `undefined`) and equal the input fields
unchanged.  The `notNullish` hypothesis records that plain member access —
and hence the reduction itself — only runs on non-null, non-undefined
documents in JS. -/
theorem c8_verbatim_passthrough (j : JVal) (h : notNullish j = true) :
    (hasKey (extractMinimalSpineStructure j) "transform" = true
      ∧ getField (extractMinimalSpineStructure j) "transform" = getField j "transform")
    ∧ (hasKey (extractMinimalSpineStructure j) "path" = true
      ∧ getField (extractMinimalSpineStructure j) "path" = getField j "path")
    ∧ (hasKey (extractMinimalSpineStructure j) "animations" = true
      ∧ getField (extractMinimalSpineStructure j) "animations" = getField j "animations")
    ∧ (hasKey (extractMinimalSpineStructure j) "events" = true
      ∧ getField (extractMinimalSpineStructure j) "events" = getField j "events") :=
  ⟨⟨hasKey_extract_transform j, extract_getField_transform j⟩,
   ⟨hasKey_extract_path j, extract_getField_path j⟩,
   ⟨hasKey_extract_animations j, extract_getField_animations j⟩,
   ⟨hasKey_extract_events j, extract_getField_events j⟩⟩

/-- Witness for C8 at the empty document: all four fields are assigned
even though every one of them is `undefined` in the input. -/
theorem c8_verbatim_passthrough_witness :
    notNullish (JVal.obj []) = true
    ∧ hasKey (extractMinimalSpineStructure (JVal.obj [])) "transform" = true
    ∧ getField (extractMinimalSpineStructure (JVal.obj [])) "events"
        = getField (JVal.obj []) "events" :=
  ⟨rfl,
   (c8_verbatim_passthrough (JVal.obj []) rfl).1.1,
   (c8_verbatim_passthrough (JVal.obj []) rfl).2.2.2.2⟩

/-- C9.  `createBlankPng` never allocates an image smaller than 1×1 (a
non-positive or non-numeric dimension is clamped up to 1), and the
generation loop replaces an unresolved `{0,0}` result of
`findAttachmentSize` by the 2×2 fallback before creating the image. -/
theorem c9_dimension_clamping (width height : JVal) (j : JVal) (name : String)
    (h : findAttachmentSize j name = (0, 0)) :
    (1 ≤ (createBlankPngDims width height).1
      ∧ 1 ≤ (createBlankPngDims width height).2)
    ∧ generationSize (findAttachmentSize j name) = (2, 2) := by
  refine ⟨⟨le_max_left 1 _, le_max_left 1 _⟩, ?_⟩
  rw [h]
  decide

/-- Witness for C9 with a non-numeric width, a negative height, and a
document in which the attachment is unresolved. -/
theorem c9_dimension_clamping_witness :
    findAttachmentSize (JVal.obj []) "a" = (0, 0)
    ∧ ((1 ≤ (createBlankPngDims (JVal.str "x") (JVal.num (-7))).1
      ∧ 1 ≤ (createBlankPngDims (JVal.str "x") (JVal.num (-7))).2)
      ∧ generationSize (findAttachmentSize (JVal.obj []) "a") = (2, 2)) :=
  ⟨rfl, c9_dimension_clamping (JVal.str "x") (JVal.num (-7)) (JVal.obj []) "a" rfl⟩

/-- C10.  When the input's `skins` field is an array, the reduced output
omits `skins` (the `.default` lookup on an array is `undefined`, whatever
the entries are named), while attachment enumeration still walks the array
entries. -/
theorem c10_array_skins (j : JVal) (skinList : List JVal)
    (h : getField j "skins" = .arr skinList) :
    hasKey (extractMinimalSpineStructure j) "skins" = false
    ∧ collectAttachmentNames j = dedupKeepFirst []
        (skinList.flatMap (fun skin =>
          namesFromRoot (jsOr (getField skin "attachments") skin))) := by
  have hdflt : defaultSkin j = .undefined := by
    unfold defaultSkin
    rw [h]
    simp [getField, canonIndex, show strToNat? "default" = none from by decide]
  constructor
  · rw [hasKey_extract_skins, hdflt]
    simp [truthy]
  · cases j with
    | obj fields =>
      unfold collectAttachmentNames
      rw [h]
      simp [truthy]
    | null => simp [getField] at h
    | undefined => simp [getField] at h
    | bool b => simp [getField] at h
    | num n => simp [getField] at h
    | str s =>
      simp [getField, canonIndex, show strToNat? "skins" = none from by decide] at h
    | arr l =>
      simp [getField, canonIndex, show strToNat? "skins" = none from by decide] at h

/-- A document whose `skins` array holds one skin that is literally named
`default`. -/
def arraySkinsDoc : JVal :=
  .obj [("skins", .arr [.obj [("name", .str "default"),
    ("attachments", .obj [("sl", .obj [("a", .obj [])])])]])]

/-- The entry list of `arraySkinsDoc`'s `skins` array. -/
def arraySkinsList : List JVal :=
  [.obj [("name", .str "default"),
    ("attachments", .obj [("sl", .obj [("a", .obj [])])])]]

/-- Witness for C10: the array-shaped document with a skin named `default`
still loses its `skins` block, yet `a` is enumerated. -/
theorem c10_array_skins_witness :
    getField arraySkinsDoc "skins" = .arr arraySkinsList
    ∧ collectAttachmentNames arraySkinsDoc = ["a"]
    ∧ (hasKey (extractMinimalSpineStructure arraySkinsDoc) "skins" = false
      ∧ collectAttachmentNames arraySkinsDoc = dedupKeepFirst []
          (arraySkinsList.flatMap (fun skin =>
            namesFromRoot (jsOr (getField skin "attachments") skin)))) :=
  ⟨rfl, by decide, c10_array_skins arraySkinsDoc arraySkinsList rfl⟩

/-- A document carrying an attachment whose name is the empty string. -/
def emptyNameDoc : JVal :=
  .obj [("skins", .obj [("skinA", .obj [("slotA", .obj [("", .obj [])])])])]

/-- C4, counterexample: `collectAttachmentNames` performs no emptiness
check (the `if (!attachmentName) continue` skip lives in `main`'s
generation loop, src/index.js line 451, not in the enumeration), so the
empty attachment name of `emptyNameDoc` is returned. -/
theorem c4_counterexample_empty_name :
    "" ∈ collectAttachmentNames emptyNameDoc := by decide

/-- C4 as amended: the names the generation loop actually processes —
after line 451 drops falsy names — are all non-empty. -/
theorem c4_generated_names_nonempty (j : JVal) (s : String)
    (h : s ∈ generatedNames j) : s ≠ "" := by
  unfold generatedNames at h
  have hs := List.of_mem_filter h
  simpa using hs

/-- A document with a single ordinarily-named attachment. -/
def simpleNameDoc : JVal :=
  .obj [("skins", .obj [("sk", .obj [("sl", .obj [("a", .obj [])])])])]

/-- Witness for the amended C4. -/
theorem c4_generated_names_nonempty_witness :
    "a" ∈ generatedNames simpleNameDoc ∧ "a" ≠ "" :=
  ⟨by decide, c4_generated_names_nonempty simpleNameDoc "a" (by decide)⟩

/-- The same skins content presented in list shape: one array entry per
skin, each carrying the slot mapping under its `attachments` field. -/
def listShapedDoc (bodies : List (String × JVal)) : JVal :=
  .obj [("skins", .arr (bodies.map (fun p => JVal.obj [("attachments", p.2)])))]

/-- The same skins content presented in map shape: skin name to slot
mapping. -/
def mapShapedDoc (bodies : List (String × JVal)) : JVal :=
  .obj [("skins", .obj bodies)]

theorem namesFromRoot_attachments_wrap (body : JVal) :
    namesFromRoot (jsOr (getField (JVal.obj [("attachments", body)]) "attachments")
      (JVal.obj [("attachments", body)])) = namesFromRoot body := by
  have hga : getField (JVal.obj [("attachments", body)]) "attachments" = body := rfl
  rw [hga]
  unfold jsOr
  cases ht : truthy body with
  | true => rw [if_pos rfl]
  | false =>
    rw [if_neg (by simp [ht])]
    have hnil : ownPairs body = [] := ownPairs_eq_nil_of_falsy body ht
    unfold namesFromRoot
    rw [show ownPairs (JVal.obj [("attachments", body)]) = [("attachments", body)] from rfl]
    simp [hnil]

/-- C3.  Enumeration is shape-independent: identical skins content yields
the same attachment-name set whether `skins` is list-shaped or
map-shaped. -/
theorem c3_list_map_same_names (bodies : List (String × JVal)) (name : String) :
    name ∈ collectAttachmentNames (listShapedDoc bodies)
      ↔ name ∈ collectAttachmentNames (mapShapedDoc bodies) := by
  have h1 : collectAttachmentNames (listShapedDoc bodies)
      = dedupKeepFirst [] ((bodies.map (fun p => JVal.obj [("attachments", p.2)])).flatMap
          (fun skin => namesFromRoot (jsOr (getField skin "attachments") skin))) := rfl
  have h2 : collectAttachmentNames (mapShapedDoc bodies)
      = dedupKeepFirst [] (bodies.flatMap (fun skinPair => namesFromRoot skinPair.2)) := rfl
  rw [h1, h2]
  have hraw : (bodies.map (fun p => JVal.obj [("attachments", p.2)])).flatMap
        (fun skin => namesFromRoot (jsOr (getField skin "attachments") skin))
      = bodies.flatMap (fun skinPair => namesFromRoot skinPair.2) := by
    clear h1 h2
    induction bodies with
    | nil => rfl
    | cons b bs ih =>
      simp only [List.map_cons, List.flatMap_cons, ih,
        namesFromRoot_attachments_wrap]
  rw [hraw]

theorem exists_obj_of_isObj (v : JVal) (h : isObj v = true) :
    ∃ fs, v = JVal.obj fs := by
  cases v with
  | obj fields => exact ⟨fields, rfl⟩
  | null => simp [isObj] at h
  | undefined => simp [isObj] at h
  | bool b => simp [isObj] at h
  | num n => simp [isObj] at h
  | str s => simp [isObj] at h
  | arr l => simp [isObj] at h

/-- C1.  Every attachment present in the input's default skin appears at
the same `skins.default[slot][attachment]` path in the reduced output:
verbatim when `shouldPreserveAttachmentObject` recognizes one of its keys,
else as exactly `{width: a.width || 0, height: a.height || 0}`.  The
object hypotheses record that the default skin and the slot are plain
objects, so that "slot/attachment path" is meaningful. -/
theorem c1_default_skin_reduction (j : JVal) (slotName attName : String)
    (hskins : truthy (getField j "skins") = true)
    (hdflt : isObj (defaultSkin j) = true)
    (hslot : hasKey (defaultSkin j) slotName = true)
    (hslotObj : isObj (getField (defaultSkin j) slotName) = true)
    (hatt : hasKey (getField (defaultSkin j) slotName) attName = true) :
    getField (getField (getField (getField (extractMinimalSpineStructure j) "skins")
        "default") slotName) attName
      = (if shouldPreserveAttachmentObject
            (getField (getField (defaultSkin j) slotName) attName) = true
         then getField (getField (defaultSkin j) slotName) attName
         else .obj [("width", jsOr (getField (getField (getField (defaultSkin j)
                slotName) attName) "width") (.num 0)),
              ("height", jsOr (getField (getField (getField (defaultSkin j)
                slotName) attName) "height") (.num 0))]) := by
  have htd : truthy (defaultSkin j) = true := truthy_of_isObj _ hdflt
  rw [extract_getField_skins j hskins htd]
  rw [show getField (JVal.obj [("default", reduceDefaultSkin (defaultSkin j))]) "default"
      = reduceDefaultSkin (defaultSkin j) from rfl]
  obtain ⟨slots, hD⟩ := exists_obj_of_isObj _ hdflt
  rw [hD] at hslot hslotObj hatt ⊢
  rw [show reduceDefaultSkin (JVal.obj slots)
      = .obj (slots.map (fun p => (p.1, reduceSlot p.2))) from rfl]
  rw [getField_map_obj slots reduceSlot slotName hslot]
  obtain ⟨atts, hS⟩ := exists_obj_of_isObj _ hslotObj
  rw [hS] at hatt ⊢
  rw [show reduceSlot (JVal.obj atts)
      = .obj (atts.map (fun p => (p.1, reduceAttachment p.2))) from rfl]
  rw [getField_map_obj atts reduceAttachment attName hatt]
  rfl

/-- A document whose default skin holds one simple region attachment and
one mesh attachment in the same slot. -/
def mixedSkinDoc : JVal :=
  .obj [("skins", .obj [("default", .obj [("slotA", .obj [
    ("att1", .obj [("width", .num 10), ("height", .num 20), ("x", .num 3)]),
    ("mesh1", .obj [("type", .str "mesh"), ("vertices", .arr [.num 1])])])])])]

/-- Witness for C1: the region attachment is cut down to its dimensions
(the extra `x` field disappears), the mesh attachment survives verbatim. -/
theorem c1_default_skin_reduction_witness :
    truthy (getField mixedSkinDoc "skins") = true
    ∧ isObj (defaultSkin mixedSkinDoc) = true
    ∧ getField (getField (getField (getField
        (extractMinimalSpineStructure mixedSkinDoc) "skins") "default") "slotA") "att1"
      = .obj [("width", .num 10), ("height", .num 20)]
    ∧ getField (getField (getField (getField
        (extractMinimalSpineStructure mixedSkinDoc) "skins") "default") "slotA") "mesh1"
      = .obj [("type", .str "mesh"), ("vertices", .arr [.num 1])] :=
  ⟨rfl, rfl,
   (c1_default_skin_reduction mixedSkinDoc "slotA" "att1" rfl rfl rfl rfl rfl).trans rfl,
   (c1_default_skin_reduction mixedSkinDoc "slotA" "mesh1" rfl rfl rfl rfl rfl).trans rfl⟩

/-! ## C2: `findAttachmentSize` returns the first positive match -/

/-- The width/height pair `findAttachmentSize` reads off an attachment:
`Number(att.width) || 0` and likewise for the height. -/
def attDims (att : JVal) : Int × Int :=
  (numOr0 (getField att "width"), numOr0 (getField att "height"))

/-- Both coerced dimensions strictly positive. -/
def posDims (att : JVal) : Bool :=
  decide (0 < numOr0 (getField att "width"))
    && decide (0 < numOr0 (getField att "height"))

/-- Spec-side description of the scan: all attachments literally named
`name` inside one skin root, slots in document order, attachments in
document order. -/
def attachmentsNamed (root : JVal) (name : String) : List JVal :=
  (ownPairs root).flatMap (fun slotPair =>
    ((ownPairs slotPair.2).filter (fun p => p.1 == name)).map (fun p => p.2))

/-- Spec-side description of the whole scan order of `findAttachmentSize`:
skins in document order (array entries through their `attachments` field
or the entry itself, map entries directly), then slots, then
attachments. -/
def occurrencesInScanOrder (json : JVal) (name : String) : List JVal :=
  if !truthy json || !truthy (getField json "skins") then []
  else
    match getField json "skins" with
    | .arr skinList =>
      skinList.flatMap (fun skin =>
        attachmentsNamed (jsOr (getField skin "attachments") skin) name)
    | skins => (ownPairs skins).flatMap (fun skinPair : String × JVal =>
        attachmentsNamed skinPair.2 name)

theorem checkDims_eq_guard (att : JVal) :
    checkDims att = if posDims att then some (attDims att) else none := rfl

theorem scanAttachmentsRoot_eq (root : JVal) (name : String) :
    scanAttachmentsRoot root name
      = ((attachmentsNamed root name).find? posDims).map attDims := by
  unfold scanAttachmentsRoot attachmentsNamed
  have inner : ∀ slot : JVal,
      (ownPairs slot).findSome? (fun attPair =>
          if attPair.1 == name then checkDims attPair.2 else none)
        = ((((ownPairs slot).filter (fun p => p.1 == name)).map
            (fun p => p.2)).find? posDims).map attDims := by
    intro slot
    rw [← findSome?_filter (ownPairs slot) (fun p => p.1 == name)
        (fun p => checkDims p.2)]
    rw [← findSome?_comp_map ((ownPairs slot).filter (fun p => p.1 == name))
        (fun p => p.2) checkDims]
    rw [show checkDims = (fun att => if posDims att then some (attDims att) else none)
        from funext checkDims_eq_guard]
    rw [findSome?_guard]
  simp only [inner]
  rw [findSome?_map_inner, ← find?_flatMap]

/-- C2.  `findAttachmentSize` returns the coerced width/height of the
first attachment named `name`, in scan order, whose coerced width and
height are both strictly positive, and `{0,0}` when there is none; being a
pure function of the document, repeated calls agree. -/
theorem c2_findAttachmentSize_first_match (json : JVal) (name : String) :
    findAttachmentSize json name
      = (((occurrencesInScanOrder json name).find? posDims).map attDims).getD (0, 0)
    ∧ findAttachmentSize json name = findAttachmentSize json name := by
  refine ⟨?_, rfl⟩
  unfold findAttachmentSize occurrencesInScanOrder
  by_cases hg : (!truthy json || !truthy (getField json "skins")) = true
  · rw [if_pos hg, if_pos hg]
    rfl
  · rw [if_neg hg, if_neg hg]
    cases hs : getField json "skins" <;>
      (simp only [scanAttachmentsRoot_eq]; rw [findSome?_map_inner, ← find?_flatMap])

end SpineHier
